import Mathlib

/-!
Verification development for the sage_trac ticket-branch plugin
(`plugins/ticket_branch.py`).  The Python source is shallowly embedded:
pure fragments become Lean functions, the database-backed merge-status
cache and the temporary-directory lifecycle become explicit state
passing, and the external pygit2 gateway is abstracted to the interface
the plugin consumes.
-/

set_option maxHeartbeats 1000000

/-- Result of a merge evaluation as stored and served by the plugin.
The three sentinel strings `GIT_FASTFORWARD`, `GIT_UPTODATE` and
`GIT_FAILED_MERGE` of the source are the first three constructors; a
preview merge commit (a pygit2 commit object in the source) is
`commit` with its hex id. -/
inductive MergeResult where
  | fastforward : MergeResult
  | uptodate : MergeResult
  | failedMerge : MergeResult
  | commit (hex : String) : MergeResult
deriving DecidableEq

/-- One row of the `merge_store` table: columns `base`, `target`, `tmp`
(see `_create_table` in the source). -/
structure Entry where
  base : String
  target : String
  tmp : String
deriving DecidableEq

/-- State visible to `filter_stream` and the cache helpers: the current
commit id of the reference branch (`master_sha1`), the `merge_store`
table (`none` while the table does not exist), and a supply of fresh
object ids standing for the timestamped preview commits minted by
`_merge` via `create_commit`. -/
structure EvalState where
  master : String
  db : Option (List Entry)
  fresh : Nat
deriving DecidableEq

/-- `SELECT base, tmp FROM "merge_store" WHERE target=%s` followed by
`cursor.next()`: the first row whose `target` column matches. -/
def findRow : List Entry → String → Option Entry
  | [], _ => none
  | e :: t, b => if e.target = b then some e else findRow t b

/-- `DELETE FROM "merge_store" WHERE target=%s`. -/
def deleteRows : List Entry → String → List Entry
  | [], _ => []
  | e :: t, b => if e.target = b then deleteRows t b else e :: deleteRows t b

/-- `_create_table`: create the `merge_store` table if it does not exist. -/
def create_table (st : EvalState) : EvalState :=
  { st with db := some (st.db.getD []) }

/-- `_drop_table`: drop the `merge_store` table if it exists. -/
def drop_table (st : EvalState) : EvalState :=
  { st with db := none }

/-- Decoding of the stored `tmp` column performed at the end of
`_get_cache`: a member of `GIT_SPECIAL_MERGES` is returned as the
sentinel itself, anything else is looked up in the repository
(`self._git.get(tmp)`, modelled as the commit with that hex). -/
def decodeTmp (tmp : String) : MergeResult :=
  if tmp = "GIT_FASTFORWARD" then .fastforward
  else if tmp = "GIT_UPTODATE" then .uptodate
  else if tmp = "GIT_FAILED_MERGE" then .failedMerge
  else .commit tmp

/-- Encoding performed by `_set_cache`: sentinels are stored verbatim,
a commit object is stored as its hex id. -/
def encodeTmp : MergeResult → String
  | .fastforward => "GIT_FASTFORWARD"
  | .uptodate => "GIT_UPTODATE"
  | .failedMerge => "GIT_FAILED_MERGE"
  | .commit h => h

/-- `_get_cache(branch)`: ensure the table exists, select the row for
the target; on no row return `None`; on a row whose `base` column is
not the current `master_sha1` drop the whole table and return `None`;
otherwise decode the stored value. -/
def get_cache (b : String) (st : EvalState) : Option MergeResult × EvalState :=
  let st1 := create_table st
  match findRow (st1.db.getD []) b with
  | none => (none, st1)
  | some e =>
    if e.base = st1.master then (some (decodeTmp e.tmp), st1)
    else (none, drop_table st1)

/-- `_set_cache(branch, tmp)`: ensure the table exists, delete any row
for the target, insert `(master_sha1, target, encoded tmp)`. -/
def set_cache (b : String) (r : MergeResult) (st : EvalState) : EvalState :=
  let st1 := create_table st
  { st1 with
    db := some (deleteRows (st1.db.getD []) b ++ [⟨st1.master, b, encodeTmp r⟩]) }

/-- Outcome of one attempt of `_merge(branch)` as observed by the
`try`/`except pygit2.GitError` block of `filter_stream`: a fast-forward
or up-to-date classification, a successfully created preview merge
commit, or a raised `pygit2.GitError` (which covers both a conflicting
merge, whose `write_tree` errors, and any transient pygit2/process
failure). -/
inductive MergeAttempt where
  | fastforward : MergeAttempt
  | uptodate : MergeAttempt
  | merged : MergeAttempt
  | gitError : MergeAttempt
deriving DecidableEq

/-- Fresh hex id minted for a preview merge commit; distinct ids for
distinct invocations, standing for the timestamped `create_commit`. -/
def mintHex (n : Nat) : String :=
  String.mk ('t' :: 'm' :: 'p' :: (toString n).data)

/-- One run of `_merge` wrapped in `filter_stream`'s
`except pygit2.GitError: tmp = GIT_FAILED_MERGE`. -/
def runMerge (o : MergeAttempt) (st : EvalState) : MergeResult × EvalState :=
  match o with
  | .fastforward => (.fastforward, st)
  | .uptodate => (.uptodate, st)
  | .merged => (.commit (mintHex st.fresh), { st with fresh := st.fresh + 1 })
  | .gitError => (.failedMerge, st)

/-- The caching core of `filter_stream` (lines 84–91 of the source):
`tmp = self._get_cache(branch)`; on a miss run `_merge` under the
`GitError` handler and `self._set_cache(branch, tmp)`. -/
def evaluate (o : MergeAttempt) (b : String) (st : EvalState) :
    MergeResult × EvalState :=
  match get_cache b st with
  | (some r, st1) => (r, st1)
  | (none, st1) =>
    let rs := runMerge o st1
    (rs.1, set_cache b rs.1 rs.2)

theorem findRow_nil (b : String) : findRow [] b = none := rfl

theorem get_cache_master (b : String) (st : EvalState) :
    (get_cache b st).2.master = st.master := by
  simp only [get_cache, create_table, drop_table]
  split
  · rfl
  · split <;> rfl

theorem runMerge_master (o : MergeAttempt) (st : EvalState) :
    (runMerge o st).2.master = st.master := by
  cases o <;> rfl

theorem runMerge_db (o : MergeAttempt) (st : EvalState) :
    (runMerge o st).2.db = st.db := by
  cases o <;> rfl

theorem findRow_deleteRows_append (t : List Entry) (b : String) (e : Entry)
    (he : e.target = b) : findRow (deleteRows t b ++ [e]) b = some e := by
  induction t with
  | nil => simp [deleteRows, findRow, he]
  | cons f t ih =>
    unfold deleteRows
    by_cases hf : f.target = b
    · simpa [hf] using ih
    · simpa [findRow, hf] using ih

theorem mintHex_ne_ff (n : Nat) : mintHex n ≠ "GIT_FASTFORWARD" := by
  intro h
  have hd := congrArg String.data h
  simp only [mintHex] at hd
  exact absurd (List.head_eq_of_cons_eq hd) (by decide)

theorem mintHex_ne_utd (n : Nat) : mintHex n ≠ "GIT_UPTODATE" := by
  intro h
  have hd := congrArg String.data h
  simp only [mintHex] at hd
  exact absurd (List.head_eq_of_cons_eq hd) (by decide)

theorem mintHex_ne_fm (n : Nat) : mintHex n ≠ "GIT_FAILED_MERGE" := by
  intro h
  have hd := congrArg String.data h
  simp only [mintHex] at hd
  exact absurd (List.head_eq_of_cons_eq hd) (by decide)

theorem decode_encode_runMerge (o : MergeAttempt) (st : EvalState) :
    decodeTmp (encodeTmp (runMerge o st).1) = (runMerge o st).1 := by
  cases o with
  | fastforward => rfl
  | uptodate => rfl
  | gitError => rfl
  | merged =>
    simp only [runMerge, encodeTmp, decodeTmp]
    rw [if_neg (mintHex_ne_ff st.fresh), if_neg (mintHex_ne_utd st.fresh),
      if_neg (mintHex_ne_fm st.fresh)]

theorem set_cache_master (b : String) (r : MergeResult) (st : EvalState) :
    (set_cache b r st).master = st.master := rfl

theorem get_cache_set_cache (b : String) (r : MergeResult) (st : EvalState) :
    (get_cache b (set_cache b r st)).1 = some (decodeTmp (encodeTmp r)) := by
  simp only [get_cache, set_cache, create_table, Option.getD_some]
  rw [findRow_deleteRows_append (st.db.getD []) b ⟨st.master, b, encodeTmp r⟩ rfl]
  simp

theorem get_cache_hit_stable (b : String) (st st1 : EvalState) (r : MergeResult)
    (hg : get_cache b st = (some r, st1)) : get_cache b st1 = (some r, st1) := by
  simp only [get_cache, create_table, Option.getD_some] at hg
  rcases hf : findRow (st.db.getD []) b with _ | e
  · rw [hf] at hg
    simp at hg
  · rw [hf] at hg
    by_cases hb : e.base = st.master
    · simp only [hb, if_pos, Prod.mk.injEq, Option.some.injEq] at hg
      obtain ⟨hr, hst⟩ := hg
      subst hst
      simp only [get_cache, create_table, Option.getD_some, hf, hb, if_pos, hr]
    · simp only [hb] at hg
      simp at hg

/-- C1: in `_get_cache`, a stored row for the target whose recorded
`base` (epoch reference id) differs from the current `master_sha1`
makes the lookup drop the entire `merge_store` table and return
absent, and immediately afterwards every lookup for every target
observes an empty cache. -/
theorem ticket_branch_c1 (b : String) (st : EvalState) (tbl : List Entry)
    (e : Entry) (hdb : st.db = some tbl) (hfind : findRow tbl b = some e)
    (hstale : e.base ≠ st.master) :
    (get_cache b st).1 = none ∧ (get_cache b st).2.db = none ∧
      ∀ b2 : String, (get_cache b2 (get_cache b st).2).1 = none := by
  have hgc : get_cache b st = (none, drop_table (create_table st)) := by
    simp only [get_cache, create_table, hdb, Option.getD_some, hfind]
    rw [if_neg hstale]
  refine ⟨by rw [hgc], by rw [hgc]; rfl, ?_⟩
  intro b2
  rw [hgc]
  simp [get_cache, create_table, drop_table, findRow]

theorem ticket_branch_c1_witness :
    (get_cache "b" ⟨"new", some [⟨"old", "b", "GIT_UPTODATE"⟩], 0⟩).1 = none
    ∧ (get_cache "b" ⟨"new", some [⟨"old", "b", "GIT_UPTODATE"⟩], 0⟩).2.db = none
    ∧ (get_cache "b2"
        (get_cache "b" ⟨"new", some [⟨"old", "b", "GIT_UPTODATE"⟩], 0⟩).2).1
      = none := by
  have h := ticket_branch_c1 "b" ⟨"new", some [⟨"old", "b", "GIT_UPTODATE"⟩], 0⟩
    [⟨"old", "b", "GIT_UPTODATE"⟩] ⟨"old", "b", "GIT_UPTODATE"⟩
    rfl (by decide) (by decide)
  exact ⟨h.1, h.2.1, h.2.2 "b2"⟩

/-- C2 counterexample: a `pygit2.GitError` raised by `_merge` (which in
the source covers transient VCS failures, not only conflicts) IS
written to the merge-status cache as `GIT_FAILED_MERGE`, and a later
evaluation is served that cached failure instead of retrying. -/
theorem ticket_branch_c2_counterexample :
    (evaluate .gitError "b" ⟨"m", none, 0⟩).2.db
        = some [⟨"m", "b", "GIT_FAILED_MERGE"⟩]
      ∧ (evaluate .merged "b" (evaluate .gitError "b" ⟨"m", none, 0⟩).2).1
        = MergeResult.failedMerge := by
  constructor <;> rfl

/-- C2 amended: on a cache miss, `filter_stream` calls `_set_cache` for
every computed outcome, including the `GIT_FAILED_MERGE` sentinel that
any `pygit2.GitError` (conflict or transient failure alike) is mapped
to; the written row carries the current reference id and the encoded
result. -/
theorem ticket_branch_c2_amended (o : MergeAttempt) (b : String)
    (st : EvalState) (hmiss : (get_cache b st).1 = none) :
    findRow (((evaluate o b st).2.db).getD []) b
        = some ⟨st.master, b, encodeTmp (evaluate o b st).1⟩
      ∧ (o = .gitError → (evaluate o b st).1 = .failedMerge) := by
  rcases hg : get_cache b st with ⟨ropt, st1⟩
  have hnone : ropt = none := by
    have := hmiss
    rw [hg] at this
    exact this
  subst hnone
  have h1 : evaluate o b st
      = ((runMerge o st1).1, set_cache b (runMerge o st1).1 (runMerge o st1).2) := by
    simp [evaluate, hg]
  constructor
  · rw [h1]
    have hm : (runMerge o st1).2.master = st.master := by
      rw [runMerge_master]
      have h2 := get_cache_master b st
      rw [hg] at h2
      exact h2
    simp only [set_cache, create_table, Option.getD_some]
    rw [hm]
    exact findRow_deleteRows_append _ b _ rfl
  · intro ho
    subst ho
    rw [h1]
    rfl

theorem ticket_branch_c2_amended_witness :
    findRow (((evaluate .gitError "b" ⟨"m", none, 0⟩).2.db).getD []) "b"
        = some ⟨"m", "b", "GIT_FAILED_MERGE"⟩
      ∧ (evaluate .gitError "b" ⟨"m", none, 0⟩).1 = MergeResult.failedMerge := by
  have h := ticket_branch_c2_amended .gitError "b" ⟨"m", none, 0⟩ (by decide)
  exact ⟨by rw [h.1]; rfl, h.2 rfl⟩

/-- C3: evaluating the same target twice with no movement of the
reference branch in between returns the identical result: the second
`filter_stream` evaluation reads the memoized entry back from the
cache instead of recomputing (recomputation would mint a fresh preview
commit id), whatever the second attempt would have produced. -/
theorem ticket_branch_c3 (o1 o2 : MergeAttempt) (b : String) (st : EvalState) :
    (evaluate o2 b (evaluate o1 b st).2).1 = (evaluate o1 b st).1 := by
  rcases hg : get_cache b st with ⟨ropt, st1⟩
  cases ropt with
  | some r =>
    have h1 : evaluate o1 b st = (r, st1) := by simp [evaluate, hg]
    have h2 := get_cache_hit_stable b st st1 r hg
    rw [h1]
    simp [evaluate, h2]
  | none =>
    have h1 : evaluate o1 b st
        = ((runMerge o1 st1).1, set_cache b (runMerge o1 st1).1 (runMerge o1 st1).2) := by
      simp [evaluate, hg]
    have h2 : (get_cache b (set_cache b (runMerge o1 st1).1 (runMerge o1 st1).2)).1
        = some (runMerge o1 st1).1 := by
      rw [get_cache_set_cache, decode_encode_runMerge]
    rcases hh : get_cache b (set_cache b (runMerge o1 st1).1 (runMerge o1 st1).2)
      with ⟨r2opt, st2⟩
    have hr2 : r2opt = some (runMerge o1 st1).1 := by
      have := h2
      rw [hh] at this
      exact this
    subst hr2
    rw [h1]
    simp [evaluate, hh]

/-- Abstract input of one `_merge(branch)` classification: the
reference commit (`repo.head`, the clone of `develop`), the target
commit (`branch`), their merge base, whether the three-way merge is
clean (`repo.index.write_tree()` succeeds), and the id the preview
commit would get. -/
structure MergeInput where
  head : String
  target : String
  base : String
  clean : Bool
  minted : String
deriving DecidableEq

/-- Modelled from the spec: `VcsGateway.IsAncestor(target, reference)`
expressed through the merge base — the target is an ancestor of the
reference exactly when the merge base is the target itself. -/
def isAncestorOfHead (i : MergeInput) : Bool :=
  i.base = i.target

/-- Modelled from the spec: pygit2's `MergeResult.is_uptodate` flag
(the external merge analysis): set when the target is already merged,
i.e. reachable from the reference. -/
def is_uptodate_flag (i : MergeInput) : Bool :=
  isAncestorOfHead i

/-- Modelled from the spec: pygit2's `MergeResult.is_fastforward` flag:
set when the reference itself is the merge base (and the target is not
already merged). -/
def is_fastforward_flag (i : MergeInput) : Bool :=
  (i.base = i.head) && !(i.base = i.target)

/-- The classification of `_merge` (lines 162–202 of the source),
composed with `filter_stream`'s `except pygit2.GitError` handler for
the unclean-merge case: check `merge.is_fastforward` first, then
`merge.is_uptodate`, otherwise run the real three-way merge, which
errors (`GIT_FAILED_MERGE`) when unclean and otherwise creates the
preview commit.  The second component records whether the real merge
(the `else` branch writing trees and a commit) ran. -/
def mergeClassify (i : MergeInput) : MergeResult × Bool :=
  if is_fastforward_flag i then (.fastforward, false)
  else if is_uptodate_flag i then (.uptodate, false)
  else if i.clean then (.commit i.minted, true)
  else (.failedMerge, true)

/-- MergeStatus of the spec's MergeAnalyzer state machine (its §4.3
result states that depend on ancestry and the merge attempt). -/
inductive SpecStatus where
  | NoCommits : SpecStatus
  | FastForward : SpecStatus
  | UpToDate : SpecStatus
  | Conflict : SpecStatus
  | Mergeable (hex : String) : SpecStatus
deriving DecidableEq

/-- Modelled from the spec (for refinement comparison): steps 4–7 of
the MergeAnalyzer state machine exactly as the spec words them:
`base == targetId` gives NoCommits, then `base == referenceId` gives
FastForward, then `IsAncestor(targetId, referenceId)` gives UpToDate,
and only then the real merge decides Conflict versus Mergeable. -/
def specClassify (i : MergeInput) : SpecStatus :=
  if i.base = i.target then .NoCommits
  else if i.base = i.head then .FastForward
  else if isAncestorOfHead i then .UpToDate
  else if i.clean then .Mergeable i.minted
  else .Conflict

/-- Interpretation of the code's results in the spec's status type. -/
def toSpec : MergeResult → SpecStatus
  | .fastforward => .FastForward
  | .uptodate => .UpToDate
  | .failedMerge => .Conflict
  | .commit h => .Mergeable h

/-- C4 counterexample: when the merge base equals the target commit
(target strictly behind the reference) the spec's state machine says
NoCommits, but the code classifies `GIT_UPTODATE`; the code has no
NoCommits outcome at all, so the claimed classification order fails at
this input. -/
theorem ticket_branch_c4_counterexample :
    specClassify ⟨"h", "t", "t", true, "p"⟩ = SpecStatus.NoCommits
      ∧ (mergeClassify ⟨"h", "t", "t", true, "p"⟩).1 = MergeResult.uptodate
      ∧ toSpec (mergeClassify ⟨"h", "t", "t", true, "p"⟩).1
          ≠ specClassify ⟨"h", "t", "t", true, "p"⟩ := by
  refine ⟨rfl, rfl, ?_⟩
  decide

/-- C4 amended: the code's classification has no NoCommits state.  It
returns `GIT_UPTODATE` exactly when the merge base equals the target
(the target is an ancestor of the reference, the spec's NoCommits and
UpToDate cases combined), `GIT_FASTFORWARD` exactly when the merge
base equals the reference and differs from the target; the two are
mutually exclusive, and the real three-way merge runs exactly when the
base is neither commit, deciding failed-merge versus a preview
commit. -/
theorem ticket_branch_c4_amended (i : MergeInput) :
    ((mergeClassify i).1 = MergeResult.uptodate ↔ i.base = i.target)
    ∧ ((mergeClassify i).1 = MergeResult.fastforward
        ↔ (i.base = i.head ∧ i.base ≠ i.target))
    ∧ ¬((mergeClassify i).1 = MergeResult.uptodate
        ∧ (mergeClassify i).1 = MergeResult.fastforward)
    ∧ ((mergeClassify i).2 = true ↔ (i.base ≠ i.target ∧ i.base ≠ i.head))
    ∧ ((mergeClassify i).2 = true →
        ((mergeClassify i).1 = MergeResult.commit i.minted ↔ i.clean = true)) := by
  obtain ⟨hd, tg, bs, cl, mi⟩ := i
  by_cases hbt : bs = tg
  · subst hbt
    cases cl <;>
      simp [mergeClassify, is_fastforward_flag, is_uptodate_flag,
        isAncestorOfHead]
  · by_cases hbh : bs = hd
    · subst hbh
      cases cl <;>
        simp [mergeClassify, is_fastforward_flag, is_uptodate_flag,
          isAncestorOfHead, hbt]
    · cases cl <;>
        simp [mergeClassify, is_fastforward_flag, is_uptodate_flag,
          isAncestorOfHead, hbt, hbh]

theorem ticket_branch_c4_witness :
    (mergeClassify ⟨"h", "t", "b", true, "p"⟩).2 = true :=
  ((ticket_branch_c4_amended ⟨"h", "t", "b", true, "p"⟩).2.2.2.1).mpr
    (by decide)

/-- File-system state for the temporary working copies `_merge`
allocates: the set of live temporary directories (as a list of ids)
and the next id `tempfile.mkdtemp` would hand out. -/
structure FsState where
  dirs : List Nat
  next : Nat
deriving DecidableEq

/-- Exit paths of the `try` body of `_merge` (lines 157–202): an early
pygit2/process failure, a fast-forward or up-to-date classification, a
conflicting merge whose `write_tree` raises, or a completed preview
merge commit. -/
inductive MergePath where
  | cloneFail : MergePath
  | fastforward : MergePath
  | uptodate : MergePath
  | conflict : MergePath
  | merged : MergePath
deriving DecidableEq

/-- Value or raised `pygit2.GitError` produced by the `try` body of
`_merge` on each exit path. -/
def runBody (p : MergePath) (minted : String) : Except Unit MergeResult :=
  match p with
  | .cloneFail => .error ()
  | .conflict => .error ()
  | .fastforward => .ok .fastforward
  | .uptodate => .ok .uptodate
  | .merged => .ok (.commit minted)

/-- Python's `try`/`finally`: the finaliser is applied to the state
whether the body produced a value or an exception, and the body's
outcome (value or propagated exception) is returned unchanged. -/
def tryFinallyFs (body : Except Unit MergeResult) (fin : FsState → FsState)
    (s : FsState) : Except Unit MergeResult × FsState :=
  (body, fin s)

/-- `_merge`'s resource shape: `tmpdir = tempfile.mkdtemp()` before the
`try`, and `shutil.rmtree(tmpdir)` in the `finally`. -/
def merge_scoped (p : MergePath) (minted : String) (s : FsState) :
    Except Unit MergeResult × FsState :=
  let d := s.next
  let s1 : FsState := ⟨d :: s.dirs, s.next + 1⟩
  tryFinallyFs (runBody p minted) (fun s2 => ⟨s2.dirs.erase d, s2.next⟩) s1

/-- C9: on every exit path of `_merge` — fast-forward, up-to-date,
completed merge, conflict, or an early propagated error — the
temporary working copy is deleted before the call returns or raises:
the live-directory set afterwards equals the one before, and the
body's outcome (including a propagated exception) is returned
unswallowed. -/
theorem ticket_branch_c9 (p : MergePath) (minted : String) (s : FsState) :
    (merge_scoped p minted s).2.dirs = s.dirs
      ∧ (merge_scoped p minted s).1 = runBody p minted := by
  constructor
  · simp [merge_scoped, tryFinallyFs]
  · rfl

/-- Base URL of the cgit instance (`GIT_BASE_URL` in the source). -/
def GIT_BASE_URL : String := "http://git.sagemath.org/sage.git/"

/-- `GIT_COMMIT_URL.format(commit=...)`: the deep link built from a
full commit id. -/
def git_commit_url (commit : String) : String :=
  GIT_BASE_URL ++ "commit/?id=" ++ commit

/-- A commit object as `log_table` consumes it: its hex id and its
message. -/
structure Commit where
  hex : String
  message : String
deriving DecidableEq

/-- The pygit2 repository surface consumed by `log_table` and
`validate_ticket`.  Modelled from the spec: `lookup_branch` composed
with `get_object` resolves a branch name to its commit, `get` looks an
object id up (absent ids give `none`, standing for both
`Repository.get` returning `None` and `__getitem__` raising
`KeyError`), and `walk` is `VcsGateway.LogAncestors`: the
topological-then-chronological newest-first walk from a commit with
the given ids and their ancestors hidden. -/
structure Git where
  lookup_branch : String → Option Commit
  get : String → Option Commit
  walk : String → List String → List Commit

/-- Python `str.splitlines` restricted to the newline character: every
line is terminated by `\n` or by the end of the string, and a trailing
newline produces no trailing empty line. -/
def splitlinesAux : List Char → List Char → List (List Char)
  | acc, [] => if acc.isEmpty then [] else [acc.reverse]
  | acc, c :: rest =>
    if c = '\n' then acc.reverse :: splitlinesAux [] rest
    else splitlinesAux (c :: acc) rest

/-- `s.splitlines()` as used by the plugin. -/
def pySplitlines (s : String) : List String :=
  (splitlinesAux [] s.data).map String.mk

/-- `commit.message.splitlines()` followed by `title[0] if title else
the empty string`: the first line of a commit message. -/
def firstLineOf (m : String) : String :=
  match pySplitlines m with
  | [] => ""
  | l :: _ => l

/-- `commit.hex[:7]`: the 7-character short id (Python slicing). -/
def shortHex (h : String) : String :=
  String.mk (h.data.take 7)

/-- One row of the log table:
`u'||[%s %s]||{{{%s}}}||' % (url, short_sha1, title)`. -/
def rowOf (c : Commit) : String :=
  "||[" ++ git_commit_url c.hex ++ " " ++ shortHex c.hex ++ "]||"
    ++ "\x7b\x7b\x7b" ++ firstLineOf c.message ++ "\x7d\x7d\x7d||"

/-- `len(table) >= limit`, where the default limit `float('inf')` is
`none` and never reached. -/
def limitReached : Option Nat → Nat → Bool
  | none, _ => false
  | some n, k => n ≤ k

/-- The `for commit in walker` loop of `log_table`: stop once the
limit is reached, otherwise append the formatted row. -/
def logLoop (limit : Option Nat) : List Commit → List String → List String
  | [], table => table
  | c :: rest, table =>
    if limitReached limit table.length then table
    else logLoop limit rest (table ++ [rowOf c])

/-- The hide loop of `log_table`: each ignore entry is resolved as a
branch first and as an object id second, and every resolvable entry's
commit id is hidden from the walk. -/
def hiddenOids (git : Git) (ignore : List String) : List String :=
  ignore.filterMap fun b =>
    match git.lookup_branch b with
    | some c => some c.hex
    | none =>
      match git.get b with
      | some c => some c.hex
      | none => none

/-- `log_table(new_commit, limit, ignore)`: resolve the starting
commit (`self._git[new_commit]`, whose `KeyError` on an unknown id is
modelled as `none`), walk its ancestors newest-first with the resolved
ignore set hidden, collect at most `limit` rows, and reverse so the
result reads oldest to newest. -/
def log_table (git : Git) (new_commit : String) (limit : Option Nat)
    (ignore : List String) : Option (List String) :=
  match git.get new_commit with
  | none => none
  | some c =>
    some ((logLoop limit (git.walk c.hex (hiddenOids git ignore)) []).reverse)

/-- `MAX_NEW_COMMITS` of the source. -/
def MAX_NEW_COMMITS : Nat := 10

/-- `MASTER_BRANCH` of the source. -/
def MASTER_BRANCH : String := "develop"

/-- The header/truncation logic of `validate_ticket` (lines 287–291):
more than `MAX_NEW_COMMITS` rows give the `Last 10 new commits:`
header and a table truncated to 10; otherwise the `New commits:`
header and the table unchanged. -/
def changelogBlock (table : List String) : String × List String :=
  if MAX_NEW_COMMITS < table.length then
    ("Last 10 new commits:", table.take MAX_NEW_COMMITS)
  else
    ("New commits:", table)

/-- The comment-appending tail of `validate_ticket` (lines 287–298):
when the (possibly truncated) table is nonempty, split the existing
comment into lines, separate it with `----` if it was nonempty, append
the header and rows, and re-join with newlines; an empty table leaves
the comment untouched. -/
def appendBlock (comment0 : String) (table0 : List String) : String :=
  let hb := changelogBlock table0
  if hb.2.isEmpty then comment0
  else
    let comment := pySplitlines comment0
    let comment := if comment.isEmpty then comment else comment ++ ["----"]
    String.intercalate "\n" (comment ++ hb.1 :: hb.2)

/-- Python whitespace as stripped by `str.strip` and `int`. -/
def isSpaceCh (c : Char) : Bool :=
  c = ' ' || c = '\t' || c = '\n' || c = '\r'
    || c = Char.ofNat 11 || c = Char.ofNat 12

/-- Hexadecimal digits accepted by `int(val, 16)`. -/
def isHexDigitCh (c : Char) : Bool :=
  (decide (48 ≤ c.toNat) && decide (c.toNat ≤ 57))
    || (decide (97 ≤ c.toNat) && decide (c.toNat ≤ 102))
    || (decide (65 ≤ c.toNat) && decide (c.toNat ≤ 70))

/-- `str.strip()`. -/
def pyStrip (l : List Char) : List Char :=
  ((l.dropWhile isSpaceCh).reverse.dropWhile isSpaceCh).reverse

/-- Optional leading sign accepted by Python `int`. -/
def dropSign : List Char → List Char
  | c :: rest => if c = '+' || c = '-' then rest else c :: rest
  | [] => []

/-- Optional `0x`/`0X` marker accepted by Python `int(_, 16)`. -/
def dropHexMark : List Char → List Char
  | c0 :: c1 :: rest =>
    if c0 = '0' && (c1 = 'x' || c1 = 'X') then rest else c0 :: c1 :: rest
  | l => l

/-- Whether `int(val, 16)` succeeds on the Python 2 grammar: optional
surrounding whitespace, optional sign, optional hex marker, then a
nonempty run of hex digits. -/
def pyIntSyntax16 (l : List Char) : Bool :=
  let l1 := dropHexMark (dropSign (pyStrip l))
  !l1.isEmpty && l1.all isHexDigitCh

/-- `str.lower()` (ASCII). -/
def pyLower (s : String) : String :=
  String.mk (s.data.map Char.toLower)

/-- `_valid_commit(val)`: a 40-character string parsed by
`int(val, 16)` is normalised to lower case, anything else is `None`. -/
def valid_commit (val : String) : Option String :=
  if val.data.length = 40 && pyIntSyntax16 val.data then some (pyLower val)
  else none

/-- The two ticket fields the plugin reads and rewrites. -/
structure Ticket where
  branch : String
  commit : String
deriving DecidableEq

/-- The request arguments `validate_ticket` consults: `preview`, `id`
and the free-text `comment` (with its empty-string default). -/
structure Req where
  preview : Option String
  id : Option String
  comment : String
deriving DecidableEq

/-- Result of `validate_ticket`: the rewritten ticket fields, the
possibly extended comment argument, and the returned list of
validation errors. -/
structure VResult where
  ticket : Ticket
  comment : String
  errors : List String
deriving DecidableEq

/-- `branch.strip()`. -/
def pyTrim (s : String) : String :=
  String.mk (pyStrip s.data)

/-- `validate_ticket(req, ticket)` (lines 263–300 of the source):
normalise the branch field and derive the commit field; on the
non-preview change of an existing ticket whose resolved commit is new,
build the log table over the ignore set of `MASTER_BRANCH` plus the
previously recorded commit (when validly recorded), swallowing
`GitError`/`KeyError` as an early empty return, and append the
changelog block to the comment; always return no validation errors. -/
def validate_ticket (git : Git) (req : Req) (ticket : Ticket) : VResult :=
  let old_commit := valid_commit ticket.commit
  let bc : String × String :=
    if ticket.branch = "" then (ticket.branch, "")
    else
      let b := pyTrim ticket.branch
      match git.lookup_branch b with
      | none => (b, "")
      | some c => (b, c.hex)
  let ticket1 : Ticket := ⟨bc.1, bc.2⟩
  if req.preview = none ∧ req.id ≠ none ∧ bc.2 ≠ "" ∧ some bc.2 ≠ old_commit then
    let ignore : List String :=
      match old_commit with
      | some o => [MASTER_BRANCH, o]
      | none => [MASTER_BRANCH]
    match log_table git bc.2 (some (MAX_NEW_COMMITS + 1)) ignore with
    | none => ⟨ticket1, req.comment, []⟩
    | some table => ⟨ticket1, appendBlock req.comment table, []⟩
  else
    ⟨ticket1, req.comment, []⟩

theorem logLoop_some_eq (n : Nat) (l : List Commit) (acc : List String) :
    logLoop (some n) l acc = acc ++ (l.take (n - acc.length)).map rowOf := by
  induction l generalizing acc with
  | nil => simp [logLoop]
  | cons c rest ih =>
    by_cases hn : n ≤ acc.length
    · have h0 : n - acc.length = 0 := Nat.sub_eq_zero_of_le hn
      simp [logLoop, limitReached, hn, h0]
    · have hs : n - acc.length = (n - (acc.length + 1)) + 1 := by omega
      simp only [logLoop, limitReached]
      rw [if_neg (by simpa using hn)]
      rw [ih]
      simp only [List.length_append, List.length_cons, List.length_nil,
        Nat.zero_add]
      rw [hs, List.take_succ_cons]
      simp [List.append_assoc]

theorem log_table_some (git : Git) (nc : String) (n : Nat)
    (ignore : List String) (c : Commit) (hc : git.get nc = some c) :
    log_table git nc (some n) ignore
      = some ((((git.walk c.hex (hiddenOids git ignore)).take n).map
          rowOf).reverse) := by
  simp only [log_table, hc]
  rw [logLoop_some_eq]
  simp

/-- C5: for a resolvable starting commit, `log_table` with a given
limit returns at most `limit` rows; the rows are exactly the formatted
rows of the walked (newest-first, ignore-hidden) prefix of length
`limit`, reversed so the output reads oldest to newest; each row
carries the deep link built from the full id, the 7-character short
id, and the first line of the message, which is empty for an empty
message. -/
theorem ticket_branch_c5 (git : Git) (nc : String) (ignore : List String)
    (n : Nat) (c : Commit) (t : List String)
    (hc : git.get nc = some c)
    (h : log_table git nc (some n) ignore = some t) :
    t.length ≤ n
    ∧ t.reverse = ((git.walk c.hex (hiddenOids git ignore)).take n).map rowOf
    ∧ (∀ cm : Commit, rowOf cm =
        "||[" ++ git_commit_url cm.hex ++ " " ++ shortHex cm.hex ++ "]||"
          ++ "\x7b\x7b\x7b" ++ firstLineOf cm.message ++ "\x7d\x7d\x7d||")
    ∧ (∀ hx : String, 7 ≤ hx.data.length → (shortHex hx).length = 7)
    ∧ firstLineOf "" = "" := by
  rw [log_table_some git nc n ignore c hc] at h
  have ht : t = (((git.walk c.hex (hiddenOids git ignore)).take n).map
      rowOf).reverse := by
    exact (Option.some.injEq _ _).mp h.symm
  subst ht
  refine ⟨?_, by simp, fun cm => rfl, ?_, rfl⟩
  · simp only [List.length_reverse, List.length_map]
    exact List.length_take_le n _
  · intro hx h7
    simp only [shortHex]
    show (hx.data.take 7).length = 7
    simp only [List.length_take]
    omega

/-- Concrete repository used to witness C5: three walked commits and a
limit of two. -/
def gitW5 : Git where
  lookup_branch := fun _ => none
  get := fun _ => some ⟨"aaaaaaa111", "top line\nrest"⟩
  walk := fun _ _ =>
    [⟨"aaaaaaa111", "top line\nrest"⟩, ⟨"bbbbbbb222", ""⟩,
      ⟨"ccccccc333", "third"⟩]

def tW5 : List String :=
  (log_table gitW5 "aaaaaaa111" (some 2) []).getD []

theorem ticket_branch_c5_witness :
    gitW5.get "aaaaaaa111" = some ⟨"aaaaaaa111", "top line\nrest"⟩
    ∧ tW5.length ≤ 2
    ∧ tW5.reverse
      = ((gitW5.walk "aaaaaaa111" (hiddenOids gitW5 [])).take 2).map rowOf := by
  have h := ticket_branch_c5 gitW5 "aaaaaaa111" [] 2
    ⟨"aaaaaaa111", "top line\nrest"⟩ tW5 rfl rfl
  exact ⟨rfl, h.1, h.2.1⟩

/-- C6: a table built by `log_table` with limit `MAX_NEW_COMMITS + 1`
has at most eleven rows, so overflow is detectable; it overflows
`MAX_NEW_COMMITS` exactly when the block logic truncates it to exactly
ten rows under the header `Last 10 new commits:`, and otherwise the
block keeps the table whole under the header `New commits:`. -/
theorem ticket_branch_c6 (git : Git) (c : String) (ignore : List String)
    (t : List String)
    (h : log_table git c (some (MAX_NEW_COMMITS + 1)) ignore = some t) :
    t.length ≤ MAX_NEW_COMMITS + 1
    ∧ (MAX_NEW_COMMITS < t.length ↔
        ((changelogBlock t).1 = "Last 10 new commits:"
          ∧ (changelogBlock t).2.length = MAX_NEW_COMMITS))
    ∧ (t.length ≤ MAX_NEW_COMMITS → changelogBlock t = ("New commits:", t)) := by
  have hlen : t.length ≤ MAX_NEW_COMMITS + 1 := by
    cases hg : git.get c with
    | none =>
      rw [log_table, hg] at h
      exact absurd h (by simp)
    | some cm =>
      rw [log_table_some git c _ ignore cm hg] at h
      have ht := (Option.some.injEq _ _).mp h.symm
      subst ht
      simp only [List.length_reverse, List.length_map]
      exact List.length_take_le _ _
  refine ⟨hlen, ⟨?_, ?_⟩, ?_⟩
  · intro hgt
    have hb : changelogBlock t
        = ("Last 10 new commits:", t.take MAX_NEW_COMMITS) := by
      unfold changelogBlock
      rw [if_pos hgt]
    rw [hb]
    refine ⟨rfl, ?_⟩
    simp only [List.length_take]
    have := Nat.min_eq_left (Nat.le_of_lt hgt)
    omega
  · rintro ⟨h1, _⟩
    by_contra hle
    push_neg at hle
    have hb : changelogBlock t = ("New commits:", t) := by
      unfold changelogBlock
      rw [if_neg (Nat.not_lt.mpr hle)]
    rw [hb] at h1
    exact absurd (show ("New commits:" : String) = "Last 10 new commits:" from h1)
      (by decide)
  · intro hle
    unfold changelogBlock
    rw [if_neg (Nat.not_lt.mpr hle)]

/-- Concrete repository used to witness C6: fifteen walked commits
past the ignore set, the spec's own test scenario. -/
def chainW6 : List Commit :=
  (List.range 15).map fun i => ⟨"sha" ++ toString i, "msg" ++ toString i⟩

def gitW6 : Git where
  lookup_branch := fun _ => none
  get := fun _ => some ⟨"sha0", "msg0"⟩
  walk := fun _ _ => chainW6

def tW6 : List String :=
  (log_table gitW6 "sha0" (some (MAX_NEW_COMMITS + 1)) []).getD []

theorem ticket_branch_c6_witness :
    log_table gitW6 "sha0" (some (MAX_NEW_COMMITS + 1)) [] = some tW6
    ∧ (changelogBlock tW6).1 = "Last 10 new commits:"
    ∧ (changelogBlock tW6).2.length = MAX_NEW_COMMITS := by
  have h := ticket_branch_c6 gitW6 "sha0" [] tW6 rfl
  have h2 := h.2.1.mp (by decide)
  exact ⟨rfl, h2.1, h2.2⟩

/-- C10: `validate_ticket` returns the empty list of validation errors
on every input — unresolvable branches, swallowed `GitError`/`KeyError`
during changelog construction, and every combination of field values
only affect the comment and the rewritten fields, never reject the
ticket. -/
theorem ticket_branch_c10 (git : Git) (req : Req) (ticket : Ticket) :
    (validate_ticket git req ticket).errors = [] := by
  simp only [validate_ticket]
  repeat' split
  all_goals rfl

/-- C7: on the changelog path of `validate_ticket` (no preview, an
existing ticket id): a branch that is empty or fails to resolve, or
one resolving to the previously recorded commit, produces no
changelog; otherwise the log is built over exactly the ignore set of
`MASTER_BRANCH` plus the old commit id (the latter only when a valid
40-hex commit was recorded), a failed build is swallowed, and an empty
log leaves the comment untouched. -/
theorem ticket_branch_c7 (git : Git) (req : Req) (ticket : Ticket)
    (hp : req.preview = none) (hid : req.id ≠ none) :
    (ticket.branch = "" →
      (validate_ticket git req ticket).comment = req.comment)
    ∧ (ticket.branch ≠ "" →
        git.lookup_branch (pyTrim ticket.branch) = none →
        (validate_ticket git req ticket).comment = req.comment)
    ∧ (∀ c : Commit, ticket.branch ≠ "" →
        git.lookup_branch (pyTrim ticket.branch) = some c →
        (valid_commit ticket.commit = some c.hex →
          (validate_ticket git req ticket).comment = req.comment)
        ∧ (c.hex ≠ "" → valid_commit ticket.commit ≠ some c.hex →
            (validate_ticket git req ticket).comment
              = (match log_table git c.hex (some (MAX_NEW_COMMITS + 1))
                    (match valid_commit ticket.commit with
                      | some o => [MASTER_BRANCH, o]
                      | none => [MASTER_BRANCH]) with
                  | none => req.comment
                  | some table => appendBlock req.comment table)))
    ∧ appendBlock req.comment [] = req.comment := by
  refine ⟨?_, ?_, ?_, ?_⟩
  · intro hbr
    simp [validate_ticket, hbr]
  · intro hbr hlk
    simp [validate_ticket, hbr, hlk]
  · intro c hbr hlk
    constructor
    · intro hold
      simp [validate_ticket, hbr, hlk, hold]
    · intro hhex hne
      have hne2 : some c.hex ≠ valid_commit ticket.commit := fun hh => hne hh.symm
      cases hlog : log_table git c.hex (some (MAX_NEW_COMMITS + 1))
          (match valid_commit ticket.commit with
            | some o => [MASTER_BRANCH, o]
            | none => [MASTER_BRANCH]) with
      | none => simp [validate_ticket, hbr, hlk, hp, hid, hhex, hne2, hlog]
      | some tb => simp [validate_ticket, hbr, hlk, hp, hid, hhex, hne2, hlog]
  · simp [appendBlock, changelogBlock]

/-- Concrete instances used to witness C7. -/
def cW7 : Commit :=
  ⟨"0123456789abcdef0123456789abcdef01234567", "fix the bug\ndetails"⟩

def gitW7 : Git where
  lookup_branch := fun b => if b = "u/alice/fix" then some cW7 else none
  get := fun h => if h = cW7.hex then some cW7 else none
  walk := fun _ _ => [cW7]

def reqW7 : Req := ⟨none, some "1234", "initial comment"⟩

def ticketW7 : Ticket := ⟨"u/alice/fix", ""⟩

theorem ticket_branch_c7_witness :
    (validate_ticket gitW7 reqW7 ticketW7).comment
      = (match log_table gitW7 cW7.hex (some (MAX_NEW_COMMITS + 1))
            (match valid_commit ticketW7.commit with
              | some o => [MASTER_BRANCH, o]
              | none => [MASTER_BRANCH]) with
          | none => reqW7.comment
          | some table => appendBlock reqW7.comment table) := by
  have h := ticket_branch_c7 gitW7 reqW7 ticketW7 rfl (by decide)
  exact (h.2.2.1 cW7 (by decide) (by decide)).2 (by decide) (by decide)

/-- Forbidden single characters of the ref-name rules: space, DEL,
tilde, caret, colon, question mark, asterisk, open bracket. -/
def forbiddenChar (c : Char) : Bool :=
  c = ' ' || c = Char.ofNat 127 || c = '~' || c = '^' || c = ':'
    || c = '?' || c = '*' || c = '['

/-- Modelled from the spec: `RefNameValidator.IsValidName` (§4.1).  No
such validator exists under `src/`; the definition reproduces every
listed rejection rule over the name's characters: empty name, a path
segment starting with a dot, the substrings dot-dot, double slash and
at-brace, a leading slash, any backslash, any forbidden character, and
the trailing `.lock`, slash, or dot. -/
def isValidName (l : List Char) : Bool :=
  !l.isEmpty
    && !((l.splitOn '/').any fun seg => seg.head? == some '.')
    && !(decide (['.', '.'] <:+: l))
    && !(l.head? == some '/')
    && !(decide (['/', '/'] <:+: l))
    && !(decide (['@', Char.ofNat 123] <:+: l))
    && !(l.any fun c => c = '\\')
    && !(l.any forbiddenChar)
    && !(decide (['.', 'l', 'o', 'c', 'k'] <:+ l))
    && !(decide (['/'] <:+ l))
    && !(decide (['.'] <:+ l))

/-- C8: the validator accepts a name exactly when it exhibits none of
the listed defects: it rejects every name that is empty, has a path
segment starting with a dot, contains dot-dot, double slash, at-brace,
a backslash or a forbidden character, starts with a slash, or ends in
`.lock`, a slash or a dot — and accepts every name free of all these
defects. -/
theorem ticket_branch_c8 (l : List Char) :
    isValidName l = true ↔
      (l ≠ []
        ∧ (∀ seg ∈ l.splitOn '/', seg.head? ≠ some '.')
        ∧ ¬ (['.', '.'] <:+: l)
        ∧ l.head? ≠ some '/'
        ∧ ¬ (['/', '/'] <:+: l)
        ∧ ¬ (['@', Char.ofNat 123] <:+: l)
        ∧ (∀ c ∈ l, c ≠ '\\')
        ∧ (∀ c ∈ l, forbiddenChar c = false)
        ∧ ¬ (['.', 'l', 'o', 'c', 'k'] <:+ l)
        ∧ ¬ (['/'] <:+ l)
        ∧ ¬ (['.'] <:+ l)) := by
  simp [isValidName, Bool.and_eq_true, List.isEmpty_iff, List.any_eq_true,
    not_exists, Bool.not_eq_true', beq_iff_eq, decide_eq_true_eq,
    decide_eq_false_iff_not, and_assoc]
